import Mathlib

/-!
Shallow embedding of the S3-backed tus datastore (`src/lib/stores/S3Store.ts`)
and proofs about its part/chunk coordination logic.

Conventions of the embedding:
* JavaScript `undefined` is modelled by `Option.none`; `Number.parseInt` of
  `undefined` yields `NaN`, and a strict equality `NaN === x` is `false`,
  which is what `parseIntStrictEq` encodes.
* Effectful S3 calls are passed in as `Except`-valued oracles: each model
  function takes the outcome the S3 client would produce and computes the
  store's resulting value, cache state and recorded calls.
* The in-memory cache (`this.cache`) is an association list from file id to
  the cached session record; `delete this.cache[id]` is `clearCache`.
-/

namespace S3Store

/-- An S3 multipart-upload part, as returned by listParts. -/
structure Part where
  PartNumber : Nat
  Size : Nat
  ETag : String
  deriving Repr, DecidableEq

/-- Ordering used by the JS comparator `(a, b) => a.PartNumber - b.PartNumber`. -/
def partLE (a b : Part) : Prop := a.PartNumber ≤ b.PartNumber

instance : DecidableRel partLE := fun a b => Nat.decLe a.PartNumber b.PartNumber

instance : IsTotal Part partLE := ⟨fun a b => Nat.le_total a.PartNumber b.PartNumber⟩

instance : IsTrans Part partLE := ⟨fun _ _ _ => Nat.le_trans⟩

/-- JS `parts.sort((a, b) => a.PartNumber - b.PartNumber)`: sort ascending by
PartNumber (the algorithm is unspecified in JS; any sort realises it). -/
def sortParts (l : List Part) : List Part := l.insertionSort partLE

/-- JS `parts.filter((value, index) => value.PartNumber === index + 1)`:
`Array.prototype.filter` hands the callback the element's index in the array
being filtered. -/
def filterContiguous (l : List Part) : List Part :=
  (l.enum.filter (fun ip => ip.2.PartNumber == ip.1 + 1)).map Prod.snd

/-- Concatenation of the pages returned by successive `listParts` calls: the
recursion on `NextPartNumberMarker` in `_retrieveParts` concatenates pages,
and the inner calls (those given a marker) skip the post-processing. -/
def listPartsConcat (pages : List (List Part)) : List Part := pages.flatten

/-- The outermost `_retrieveParts` call (invoked with `part_number_marker`
undefined): concatenate all pages, sort by PartNumber ascending, then keep
only entries whose PartNumber equals their index plus one. -/
def retrievePartsOuter (pages : List (List Part)) : List Part :=
  filterContiguous (sortParts (listPartsConcat pages))

/-- Recursive form of `filterContiguous` with the running index made explicit. -/
def filterIdx (n : Nat) : List Part → List Part
  | [] => []
  | p :: ps =>
    if p.PartNumber = n + 1 then p :: filterIdx (n + 1) ps else filterIdx (n + 1) ps

lemma filterIdx_nil (n : Nat) : filterIdx n [] = [] := rfl

lemma filterIdx_cons (n : Nat) (p : Part) (ps : List Part) :
    filterIdx n (p :: ps) =
      if p.PartNumber = n + 1 then p :: filterIdx (n + 1) ps
      else filterIdx (n + 1) ps := rfl

lemma filterContiguous_enumFrom (n : Nat) (l : List Part) :
    ((l.enumFrom n).filter (fun ip => ip.2.PartNumber == ip.1 + 1)).map Prod.snd =
      filterIdx n l := by
  induction l generalizing n with
  | nil => rfl
  | cons p ps ih =>
    simp only [List.enumFrom_cons, List.filter_cons, filterIdx_cons]
    by_cases h : p.PartNumber = n + 1
    · simp [h, ih]
    · simp [h, ih]

lemma filterContiguous_eq_filterIdx (l : List Part) :
    filterContiguous l = filterIdx 0 l := by
  have h := filterContiguous_enumFrom 0 l
  simpa [filterContiguous, List.enum] using h

lemma filterIdx_eq_nil (n : Nat) (l : List Part)
    (hp : l.Pairwise (fun a b => a.PartNumber < b.PartNumber))
    (hge : ∀ p ∈ l, n + 2 ≤ p.PartNumber) : filterIdx n l = [] := by
  induction l generalizing n with
  | nil => rfl
  | cons p ps ih =>
    have hpge : n + 2 ≤ p.PartNumber := hge p (List.mem_cons_self p ps)
    have h1 : p.PartNumber ≠ n + 1 := by omega
    rw [filterIdx_cons, if_neg h1]
    exact ih (n + 1) (List.pairwise_cons.mp hp).2 (fun q hq => by
      have hlt := (List.pairwise_cons.mp hp).1 q hq
      omega)

lemma filterIdx_getElem? (l : List Part) (n : Nat)
    (hp : l.Pairwise (fun a b => a.PartNumber < b.PartNumber))
    (hge : ∀ p ∈ l, n + 1 ≤ p.PartNumber) :
    ∀ i q, (filterIdx n l)[i]? = some q → q.PartNumber = n + i + 1 := by
  induction l generalizing n with
  | nil => intro i q hq; simp [filterIdx] at hq
  | cons p ps ih =>
    intro i q hq
    by_cases hc : p.PartNumber = n + 1
    · rw [filterIdx_cons, if_pos hc] at hq
      match i with
      | 0 =>
        simp only [List.getElem?_cons_zero, Option.some.injEq] at hq
        subst hq
        omega
      | Nat.succ i =>
        rw [List.getElem?_cons_succ] at hq
        have hps : ∀ r ∈ ps, (n + 1) + 1 ≤ r.PartNumber := fun r hr => by
          have hlt := (List.pairwise_cons.mp hp).1 r hr
          omega
        have hrec := ih (n + 1) (List.pairwise_cons.mp hp).2 hps i q hq
        omega
    · have hpge : n + 1 ≤ p.PartNumber := hge p (List.mem_cons_self p ps)
      have hnil : filterIdx n (p :: ps) = [] := by
        apply filterIdx_eq_nil
        · exact hp
        · intro r hr
          rcases List.mem_cons.mp hr with hr | hr
          · subst hr; omega
          · have hlt := (List.pairwise_cons.mp hp).1 r hr
            omega
      rw [hnil] at hq
      simp at hq

lemma sortParts_perm (l : List Part) : List.Perm (sortParts l) l :=
  List.perm_insertionSort partLE l

lemma sortParts_pairwise_lt (l : List Part)
    (hnodup : (l.map Part.PartNumber).Nodup) :
    (sortParts l).Pairwise (fun a b => a.PartNumber < b.PartNumber) := by
  have hsorted : (sortParts l).Pairwise partLE := List.sorted_insertionSort partLE l
  have hperm : List.Perm ((sortParts l).map Part.PartNumber) (l.map Part.PartNumber) :=
    (sortParts_perm l).map Part.PartNumber
  have hnd : ((sortParts l).map Part.PartNumber).Nodup := hperm.nodup_iff.mpr hnodup
  have hnd' : ((sortParts l).map Part.PartNumber).Pairwise (fun a b => a ≠ b) := hnd
  have hne : (sortParts l).Pairwise (fun a b => a.PartNumber ≠ b.PartNumber) :=
    List.pairwise_map.mp hnd'
  exact List.Pairwise.imp (fun hab => Nat.lt_of_le_of_ne hab.1 hab.2) (hsorted.and hne)

/-- C1: the outermost `_retrieveParts` call (the one invoked without a
`part_number_marker`) returns the pages' concatenation sorted by `PartNumber`
ascending and filtered to the contiguous prefix: the entry at index `i` has
`PartNumber = i + 1`, so the result is exactly parts numbered `1..N` with no
gaps, even when the concatenated list contains gaps.  The hypotheses record
what `listParts` guarantees about its output: part numbers are pairwise
distinct and 1-based. -/
theorem C1_retrieveParts_contiguous (pages : List (List Part))
    (hnodup : ((listPartsConcat pages).map Part.PartNumber).Nodup)
    (hpos : ∀ p ∈ listPartsConcat pages, 1 ≤ p.PartNumber)
    (i : Nat) (h : i < (retrievePartsOuter pages).length) :
    ((retrievePartsOuter pages).get ⟨i, h⟩).PartNumber = i + 1 := by
  have heq : retrievePartsOuter pages = filterIdx 0 (sortParts (listPartsConcat pages)) :=
    filterContiguous_eq_filterIdx _
  have hlt := sortParts_pairwise_lt (listPartsConcat pages) hnodup
  have hge : ∀ p ∈ sortParts (listPartsConcat pages), 0 + 1 ≤ p.PartNumber := by
    intro p hpmem
    have hmem : p ∈ listPartsConcat pages := (sortParts_perm _).mem_iff.mp hpmem
    simpa using hpos p hmem
  have hsome : (filterIdx 0 (sortParts (listPartsConcat pages)))[i]? =
      some ((retrievePartsOuter pages).get ⟨i, h⟩) := by
    rw [← heq, List.getElem?_eq_getElem h, List.get_eq_getElem]
  have hkey := filterIdx_getElem? (sortParts (listPartsConcat pages)) 0 hlt hge i
    ((retrievePartsOuter pages).get ⟨i, h⟩) hsome
  omega

theorem C1_witness :
    ((retrievePartsOuter [[⟨3, 10, "c"⟩, ⟨1, 5, "a"⟩], [⟨2, 7, "b"⟩, ⟨5, 9, "e"⟩]]).get
      ⟨2, by decide⟩).PartNumber = 2 + 1 :=
  C1_retrieveParts_contiguous
    [[⟨3, 10, "c"⟩, ⟨1, 5, "a"⟩], [⟨2, 7, "b"⟩, ⟨5, 9, "e"⟩]]
    (by decide) (by decide) 2 (by decide)

/-! Part coordinator (`_processUpload`).  The splitter emits `chunkFinished`
events carrying the finished chunk's temporary-file path and byte size; the
handler (S3Store.ts lines 313-337) advances `current_size`, assigns the next
part number, skips the chunk when it is not last and under 5 MiB, otherwise
uploads it, and in both cases removes the temporary file (the JS `finally`).
A run over one readable stream is modelled as a fold over the list of chunk
sizes the splitter produced, in emission order. -/

/-- Threshold `5 * 1024 * 1024` from the skip test in `_processUpload`. -/
def fiveMiB : Nat := 5 * 1024 * 1024

/-- JS `Number.parseInt(metadata.file.upload_length, 10) === current_size`:
when `upload_length` is `undefined` (`none`), `parseInt` yields `NaN` and the
strict equality is `false`. -/
def isLastChunk : Option Nat → Nat → Bool
  | some n, current_size => n == current_size
  | none, _ => false

/-- What the coordinator did with one finished chunk: the part number it was
assigned, whether `_uploadPart` was invoked, and whether the temporary file
was removed. -/
structure ChunkAction where
  partNumber : Nat
  uploaded : Bool
  fileDeleted : Bool
  deriving Repr, DecidableEq

/-- Mutable state of the `chunkFinished` handler closure:
`current_size` and `currentPartNumber`. -/
structure CoordState where
  current_size : Nat
  currentPartNumber : Nat
  deriving Repr, DecidableEq

/-- One `chunkFinished({path, size})` event (S3Store.ts lines 313-337):
`current_size += size`, `partNumber = currentPartNumber++`, skip when
`!is_last_chunk && size < 5 * 1024 * 1024`, upload otherwise; the file is
removed in the `finally` in either case. -/
def processUploadChunk (upload_length : Option Nat) (st : CoordState) (size : Nat) :
    ChunkAction × CoordState :=
  let current_size := st.current_size + size
  let partNumber := st.currentPartNumber
  let is_last_chunk := isLastChunk upload_length current_size
  let skip := !is_last_chunk && decide (size < fiveMiB)
  (⟨partNumber, !skip, true⟩, ⟨current_size, partNumber + 1⟩)

/-- Fold of `processUploadChunk` over the chunk sizes in emission order. -/
def processUploadGo (upload_length : Option Nat) (st : CoordState) :
    List Nat → List ChunkAction × CoordState
  | [] => ([], st)
  | size :: rest =>
    let step := processUploadChunk upload_length st size
    let next := processUploadGo upload_length step.2 rest
    (step.1 :: next.1, next.2)

/-- `_processUpload(metadata, readStream, currentPartNumber, current_size)`:
run the coordinator from the given starting part number and cumulative size. -/
def processUpload (upload_length : Option Nat) (currentPartNumber current_size : Nat)
    (chunks : List Nat) : List ChunkAction × CoordState :=
  processUploadGo upload_length ⟨current_size, currentPartNumber⟩ chunks

lemma processUploadGo_length (upload_length : Option Nat) (chunks : List Nat) :
    ∀ st, (processUploadGo upload_length st chunks).1.length = chunks.length := by
  induction chunks with
  | nil => intro st; rfl
  | cons size rest ih =>
    intro st
    simp [processUploadGo, ih]

lemma processUploadGo_snd (upload_length : Option Nat) (chunks : List Nat) :
    ∀ st, (processUploadGo upload_length st chunks).2 =
      ⟨st.current_size + chunks.sum, st.currentPartNumber + chunks.length⟩ := by
  induction chunks with
  | nil => intro st; simp [processUploadGo]
  | cons size rest ih =>
    intro st
    simp only [processUploadGo, processUploadChunk, ih, CoordState.mk.injEq,
      List.sum_cons, List.length_cons]
    omega

lemma processUploadGo_getElem? (upload_length : Option Nat) (chunks : List Nat) :
    ∀ st i size, chunks[i]? = some size →
      (processUploadGo upload_length st chunks).1[i]? =
        some (processUploadChunk upload_length
          ⟨st.current_size + (chunks.take i).sum, st.currentPartNumber + i⟩ size).1 := by
  induction chunks with
  | nil => intro st i size hsize; simp at hsize
  | cons c rest ih =>
    intro st i size hsize
    match i with
    | 0 =>
      simp only [List.getElem?_cons_zero, Option.some.injEq] at hsize
      subst hsize
      simp [processUploadGo]
    | Nat.succ i =>
      rw [List.getElem?_cons_succ] at hsize
      have hrec := ih (processUploadChunk upload_length st c).2 i size hsize
      simp only [processUploadGo, List.getElem?_cons_succ]
      rw [hrec]
      have hst : (processUploadChunk upload_length st c).2 =
          ⟨st.current_size + c, st.currentPartNumber + 1⟩ := rfl
      rw [hst]
      have harg : (⟨st.current_size + c + (rest.take i).sum,
            st.currentPartNumber + 1 + i⟩ : CoordState) =
          ⟨st.current_size + ((c :: rest).take (i + 1)).sum,
            st.currentPartNumber + (i + 1)⟩ := by
        simp only [List.take_succ_cons, List.sum_cons, CoordState.mk.injEq]
        omega
      rw [harg]

/-- C2: for every finished chunk, if the cumulative size after adding the
chunk does not equal `upload_length` and the chunk's size is below
`5 * 1024 * 1024` bytes, `uploadPart` is not invoked and the chunk's
temporary file is deleted; otherwise (the chunk is final — the cumulative
size equals `upload_length` — or its size is at least 5 MiB) the chunk is
uploaded as an S3 part and the file is deleted after the upload settles.
In particular a final chunk smaller than 5 MiB is uploaded. -/
theorem C2_small_tail_policy (upload_length currentPartNumber current_size : Nat)
    (chunks : List Nat) (i size : Nat) (hsize : chunks[i]? = some size) :
    ((current_size + (chunks.take (i + 1)).sum ≠ upload_length ∧ size < fiveMiB) →
      (processUpload (some upload_length) currentPartNumber current_size chunks).1[i]? =
        some ⟨currentPartNumber + i, false, true⟩) ∧
    ((current_size + (chunks.take (i + 1)).sum = upload_length ∨ fiveMiB ≤ size) →
      (processUpload (some upload_length) currentPartNumber current_size chunks).1[i]? =
        some ⟨currentPartNumber + i, true, true⟩) := by
  obtain ⟨hbound, hij⟩ := List.getElem?_eq_some_iff.mp hsize
  have htake : (chunks.take (i + 1)).sum = (chunks.take i).sum + size := by
    rw [List.sum_take_succ chunks i hbound, hij]
  have hget := processUploadGo_getElem? (some upload_length) chunks
    ⟨current_size, currentPartNumber⟩ i size hsize
  have haction :
      (processUpload (some upload_length) currentPartNumber current_size chunks).1[i]? =
        some ⟨currentPartNumber + i,
          !((!(upload_length == current_size + (chunks.take i).sum + size)) &&
            decide (size < fiveMiB)), true⟩ := by
    rw [processUpload, hget]
    rfl
  constructor
  · rintro ⟨hne, hlt⟩
    rw [haction]
    have h1 : (upload_length == current_size + (chunks.take i).sum + size) = false := by
      simp only [beq_eq_false_iff_ne, ne_eq]
      omega
    have h2 : decide (size < fiveMiB) = true := decide_eq_true hlt
    rw [h1, h2]
    rfl
  · rintro (heq | hge5)
    · rw [haction]
      have h1 : (upload_length == current_size + (chunks.take i).sum + size) = true := by
        simp only [beq_iff_eq]
        omega
      rw [h1]
      rfl
    · rw [haction]
      have h2 : decide (size < fiveMiB) = false := by
        simp only [decide_eq_false_iff_not, Nat.not_lt]
        exact hge5
      rw [h2]
      simp

theorem C2_witness :
    (processUpload (some 10) 1 0 [4, 6]).1[0]? = some ⟨1, false, true⟩ ∧
    (processUpload (some 10) 1 0 [4, 6]).1[1]? = some ⟨2, true, true⟩ :=
  ⟨(C2_small_tail_policy 10 1 0 [4, 6] 0 4 (by decide)).1 ⟨by decide, by decide⟩,
   (C2_small_tail_policy 10 1 0 [4, 6] 1 6 (by decide)).2 (Or.inl (by decide))⟩

/-- C10: when `upload_length` is undefined (defer-length mode before
`declareUploadLength`), `Number.parseInt` yields `NaN`, the final-chunk test
never holds, and every finished chunk smaller than 5 MiB is discarded without
being uploaded, regardless of the bytes delivered. -/
theorem C10_defer_length_skips (currentPartNumber current_size : Nat)
    (chunks : List Nat) (i size : Nat) (hsize : chunks[i]? = some size)
    (hsmall : size < fiveMiB) :
    (processUpload none currentPartNumber current_size chunks).1[i]? =
      some ⟨currentPartNumber + i, false, true⟩ := by
  have hget := processUploadGo_getElem? none chunks
    ⟨current_size, currentPartNumber⟩ i size hsize
  rw [processUpload, hget]
  simp [processUploadChunk, isLastChunk, hsmall]

theorem C10_witness :
    (processUpload none 3 7 [100]).1[0]? = some ⟨3, false, true⟩ :=
  C10_defer_length_skips 3 7 [100] 0 100 (by decide) (by decide)

/-! Wiring of `write` into the coordinator (S3Store.ts lines 458-474):
`part_number = _countParts(file_id)`, `next_part_number = part_number + 1`,
and `_processUpload` is started with `initial_offset.size`. -/

/-- JS `parts.length > 0 ? parts.reduce((a, b) => a + b.Size, 0) : 0`:
the `size` computed by `getOffset` from the retrieved parts. -/
def jsSumSizes (parts : List Part) : Nat :=
  if parts.length > 0 then parts.foldl (fun a b => a + b.Size) 0 else 0

/-- `_countParts(file_id)`: `_retrieveParts(file_id).then((parts) => parts.length)`. -/
def countParts (pages : List (List Part)) : Nat := (retrievePartsOuter pages).length

/-- Composition performed by `write`: the coordinator is run with
`next_part_number = _countParts(id) + 1` and the cumulative size starting at
`initial_offset.size` (the sum of the sizes of the retrieved parts). -/
def writeProcess (pages : List (List Part)) (upload_length : Option Nat)
    (chunks : List Nat) : List ChunkAction × CoordState :=
  processUpload upload_length (countParts pages + 1)
    (jsSumSizes (retrievePartsOuter pages)) chunks

/-- C9: within one `write`, the first finished chunk is assigned part number
`countParts(id) + 1`, each subsequent finished chunk the next consecutive
integer (the i-th emitted chunk gets `countParts(id) + 1 + i`), and the
coordinator's cumulative size starts at the initial offset's size (so after
all chunks it equals that size plus the total bytes emitted). -/
theorem C9_part_number_assignment (pages : List (List Part))
    (upload_length : Option Nat) (chunks : List Nat) (i size : Nat)
    (hsize : chunks[i]? = some size) :
    ((writeProcess pages upload_length chunks).1[i]?).map ChunkAction.partNumber =
        some (countParts pages + 1 + i) ∧
    (writeProcess pages upload_length chunks).2.current_size =
        jsSumSizes (retrievePartsOuter pages) + chunks.sum := by
  constructor
  · have hget := processUploadGo_getElem? upload_length chunks
      ⟨jsSumSizes (retrievePartsOuter pages), countParts pages + 1⟩ i size hsize
    rw [writeProcess, processUpload, hget]
    rfl
  · rw [writeProcess, processUpload,
      processUploadGo_snd upload_length chunks
        ⟨jsSumSizes (retrievePartsOuter pages), countParts pages + 1⟩]

theorem C9_witness :
    ((writeProcess [[⟨1, 3, "a"⟩]] (some 10) [4]).1[0]?).map ChunkAction.partNumber =
        some (countParts [[⟨1, 3, "a"⟩]] + 1 + 0) ∧
    (writeProcess [[⟨1, 3, "a"⟩]] (some 10) [4]).2.current_size =
        jsSumSizes (retrievePartsOuter [[⟨1, 3, "a"⟩]]) + [4].sum :=
  C9_part_number_assignment [[⟨1, 3, "a"⟩]] (some 10) [4] 0 4 (by decide)

/-! Metadata store, cache, and the lifecycle operations `create`, `write`
(its error handling and completion step), `getOffset` and
`declareUploadLength`.  Effectful S3 calls appear as `Except`-valued oracle
arguments; each model computes the resolved value, the cache afterwards, and
— where a claim needs it — the arguments of the calls that were issued. -/

/-- An error surfaced by the AWS SDK; `code` is the S3 error code string. -/
structure S3Error where
  code : String
  deriving Repr, DecidableEq

/-- The upload record kept (JSON-encoded) in the `{id}.info` sidecar's `file`
user-metadata field. -/
structure UploadFile where
  id : String
  upload_length : Option Nat
  upload_defer_length : Option Nat
  upload_metadata : Option String
  deriving Repr, DecidableEq

/-- A cache entry (`this.cache[id]`): the parsed `file` record and the
multipart `upload_id` constructed from the sidecar's user metadata. -/
structure UploadSession where
  file : Option UploadFile
  upload_id : Option String
  deriving Repr, DecidableEq

/-- The in-memory cache `this.cache`, keyed by file id. -/
abbrev Cache := List (String × UploadSession)

/-- `_clearCache(file_id)`: `delete this.cache[file_id]`. -/
def clearCache (c : Cache) (id : String) : Cache :=
  c.filter (fun entry => entry.1 != id)

/-- Reading `this.cache[file_id]`. -/
def cacheGet (c : Cache) (id : String) : Option UploadSession :=
  match c with
  | [] => none
  | entry :: rest => if entry.1 = id then some entry.2 else cacheGet rest id

/-- Assignment `this.cache[file_id] = s`. -/
def cacheSet (c : Cache) (id : String) (s : UploadSession) : Cache :=
  (id, s) :: clearCache c id

/-- JS `Number.parseInt(upload_length, 10) === size`: `none` on the left
models an undefined `upload_length` (`parseInt` then yields `NaN`), `none` on
the right an undefined `size`; a strict equality involving `NaN` or mixing
`undefined` with a number is `false`. -/
def parseIntStrictEq : Option Nat → Option Nat → Bool
  | some a, some b => a == b
  | _, _ => false

/-- The record resolved by `getOffset`: the spread of `file` is elided, the
fields the store consumes are kept.  `parts = none` models the branch that
returns no `parts` field. -/
structure OffsetInfo where
  size : Option Nat
  upload_length : Option Nat
  upload_defer_length : Option Nat
  parts : Option (List Part)
  deriving Repr, DecidableEq

/-- Errors surfaced by the store: the constant `ERRORS.FILE_NOT_FOUND` or an
S3 error passed through. -/
inductive StoreError where
  | fileNotFound
  | s3 (e : S3Error)
  deriving Repr, DecidableEq

/-- `getOffset(id)` (lines 517-552) with its S3 interactions as oracles:
`metaR` is the outcome of `_getMetadata(id)` (the parsed `file` record),
`partsR` that of `_retrieveParts(id)`.  Metadata failure becomes
`FILE_NOT_FOUND`; a parts failure with code `NoSuchUpload` yields
`size = upload_length` and no `parts` field; any other parts failure
propagates. -/
def getOffsetModel (metaR : Except S3Error UploadFile)
    (partsR : Except S3Error (List Part)) : Except StoreError OffsetInfo :=
  match metaR with
  | .error _ => .error .fileNotFound
  | .ok f =>
    match partsR with
    | .ok parts =>
      .ok ⟨some (jsSumSizes parts), f.upload_length, f.upload_defer_length, some parts⟩
    | .error e =>
      if e.code == "NoSuchUpload" then
        .ok ⟨f.upload_length, f.upload_length, f.upload_defer_length, none⟩
      else .error (.s3 e)

lemma foldl_add_size (parts : List Part) :
    ∀ n, parts.foldl (fun a b => a + b.Size) n = n + (parts.map Part.Size).sum := by
  induction parts with
  | nil => intro n; simp
  | cons p ps ih =>
    intro n
    simp only [List.foldl_cons, ih, List.map_cons, List.sum_cons]
    omega

lemma jsSumSizes_eq_sum (parts : List Part) :
    jsSumSizes parts = (parts.map Part.Size).sum := by
  cases parts with
  | nil => rfl
  | cons p ps =>
    simp only [jsSumSizes, List.length_cons, if_pos (Nat.succ_pos ps.length),
      foldl_add_size]
    simp

deriving instance DecidableEq for Except

/-- Result of the tail of `write` (lines 466-513): the promise outcome, the
cache afterwards, and the `parts` argument `_finishMultipartUpload` was called
with (`none` when it was not called). -/
structure WriteTailResult where
  outcome : Except S3Error (Option Nat)
  cache : Cache
  finishCalledWith : Option (Option (List Part))
  deriving Repr, DecidableEq

/-- Error codes `write` treats as a graceful client disconnect
(`['RequestTimeout', 'NoSuchUpload'].includes(error.code)`). -/
def gracefulCodes : List String := ["RequestTimeout", "NoSuchUpload"]

/-- Tail of `write(readable, file_id)` after metadata, part count and initial
offset were obtained (lines 466-513): `coordR` is the settled outcome of
`Promise.all` over the coordinator's per-chunk promises, `offset1R` the
`getOffset` re-fetch after the coordinator, `finishR` the outcome
`_finishMultipartUpload` would produce if called, `offset2R` the `getOffset`
issued inside the graceful-disconnect branch of the catch.  The catch wraps
the whole chain: any rejection reaching it resolves gracefully when its code
is in `gracefulCodes` and otherwise clears the cache and rethrows. -/
def writeTail (cache : Cache) (id : String) (upload_length : Option Nat)
    (coordR : Except S3Error Unit) (offset1R : Except S3Error OffsetInfo)
    (finishR : Except S3Error Unit) (offset2R : Except S3Error OffsetInfo) :
    WriteTailResult :=
  let inner : Except S3Error (Option Nat) × Cache × Option (Option (List Part)) :=
    match coordR with
    | .error e => (.error e, cache, none)
    | .ok _ =>
      match offset1R with
      | .error e => (.error e, cache, none)
      | .ok off =>
        if parseIntStrictEq upload_length off.size then
          match finishR with
          | .ok _ => (.ok off.size, clearCache cache id, some off.parts)
          | .error e => (.error e, cache, some off.parts)
        else (.ok off.size, cache, none)
  match inner with
  | (.ok v, c, fc) => ⟨.ok v, c, fc⟩
  | (.error e, c, fc) =>
    if gracefulCodes.contains e.code then
      match offset2R with
      | .ok off2 => ⟨.ok off2.size, c, fc⟩
      | .error e2 => ⟨.error e2, c, fc⟩
    else ⟨.error e, clearCache c id, fc⟩

/-- `create(file)` (lines 438-448) with oracles: `bucketR` is the outcome of
`_bucketExists()`, `mpuR` that of `createMultipartUpload` (yielding the new
upload id), `saveR` that of `_saveMetadata`.  On success the upload is
returned unchanged; any failure clears the cache entry for `file.id` and
propagates. -/
def createModel (cache : Cache) (file : UploadFile) (bucketR : Except S3Error Unit)
    (mpuR : Except S3Error String) (saveR : Except S3Error Unit) :
    Except S3Error UploadFile × Cache :=
  match bucketR with
  | .error e => (.error e, clearCache cache file.id)
  | .ok _ =>
    match mpuR with
    | .error e => (.error e, clearCache cache file.id)
    | .ok _ =>
      match saveR with
      | .error e => (.error e, clearCache cache file.id)
      | .ok _ => (.ok file, cache)

/-- JS truthiness of a string-valued metadata field: `undefined` and the
empty string are falsy. -/
def jsTruthyStr : Option String → Bool
  | none => false
  | some s => !(s == "")

/-- JS `a || b` on string-valued metadata fields. -/
def jsOrStr (a b : Option String) : Option String :=
  if jsTruthyStr a then a else b

/-- The S3 `headObject` response for the `{id}.info` sidecar, with the `file`
user-metadata field already JSON-parsed (`none` means the field is absent or
unparsable, in which case `JSON.parse` throws). -/
structure HeadInfo where
  fileJson : Option UploadFile
  upload_id : Option String
  uploadHyphenId : Option String
  deriving Repr, DecidableEq

/-- Cache-miss path of `_getMetadata`: construct the session from the
sidecar's head data — `file` from the parsed JSON, `upload_id` as
`data.Metadata.upload_id || data.Metadata['upload-id']` — store it in the
cache, and return it. -/
def getMetadataFromHead (cache : Cache) (id : String)
    (headR : Except S3Error HeadInfo) : Except S3Error UploadSession × Cache :=
  match headR with
  | .error e => (.error e, cache)
  | .ok d =>
    match d.fileJson with
    | none => (.error ⟨"SyntaxError"⟩, cache)
    | some f =>
      (.ok ⟨some f, jsOrStr d.upload_id d.uploadHyphenId⟩,
       cacheSet cache id ⟨some f, jsOrStr d.upload_id d.uploadHyphenId⟩)

/-- `_getMetadata(file_id)` (lines 197-223): return the cache entry when one
exists with a populated `file`; otherwise fall through to the sidecar head
request. -/
def getMetadataModel (cache : Cache) (id : String)
    (headR : Except S3Error HeadInfo) : Except S3Error UploadSession × Cache :=
  match cacheGet cache id with
  | some s =>
    if s.file.isSome then (.ok s, cache)
    else getMetadataFromHead cache id headR
  | none => getMetadataFromHead cache id headR

/-- `declareUploadLength(file_id, upload_length)` (lines 554-563) with the
`_getMetadata` outcome as oracle: require a present `file` (else
`FILE_NOT_FOUND`), set `file.upload_length`, clear `file.upload_defer_length`,
and call `_saveMetadata(file, upload_id)`; the result records the arguments
of that call. -/
def declareUploadLengthModel (metaR : Except S3Error UploadSession)
    (upload_length : Nat) : Except StoreError (UploadFile × Option String) :=
  match metaR with
  | .error e => .error (.s3 e)
  | .ok s =>
    match s.file with
    | none => .error .fileNotFound
    | some f =>
      .ok ({ f with upload_length := some upload_length, upload_defer_length := none },
        s.upload_id)

/-- C3: when the coordinator's error has code `RequestTimeout` or
`NoSuchUpload`, `write` resolves with the offset size re-fetched from S3 via
`getOffset` and the cache entry for `id` is not cleared; for every other
error code `write` clears the cache entry for `id` and rejects with that
error. -/
theorem C3_write_error_handling (cache : Cache) (id : String)
    (upload_length : Option Nat) (e : S3Error) (off2 : OffsetInfo)
    (offset1R : Except S3Error OffsetInfo) (finishR : Except S3Error Unit)
    (offset2R : Except S3Error OffsetInfo) :
    ((e.code = "RequestTimeout" ∨ e.code = "NoSuchUpload") →
      writeTail cache id upload_length (.error e) offset1R finishR (.ok off2) =
        ⟨.ok off2.size, cache, none⟩) ∧
    ((e.code ≠ "RequestTimeout" ∧ e.code ≠ "NoSuchUpload") →
      writeTail cache id upload_length (.error e) offset1R finishR offset2R =
        ⟨.error e, clearCache cache id, none⟩) := by
  constructor
  · rintro (h | h) <;> simp [writeTail, gracefulCodes, h]
  · rintro ⟨h1, h2⟩
    simp [writeTail, gracefulCodes, h1, h2]

theorem C3_witness :
    writeTail [("f", ⟨none, some "u"⟩)] "f" (some 10) (.error ⟨"RequestTimeout"⟩)
        (.ok ⟨some 0, some 10, none, some []⟩) (.ok ())
        (.ok ⟨some 4, some 10, none, some []⟩) =
      ⟨.ok (some 4), [("f", ⟨none, some "u"⟩)], none⟩ :=
  (C3_write_error_handling [("f", ⟨none, some "u"⟩)] "f" (some 10)
    ⟨"RequestTimeout"⟩ ⟨some 4, some 10, none, some []⟩
    (.ok ⟨some 0, some 10, none, some []⟩) (.ok ())
    (.ok ⟨some 4, some 10, none, some []⟩)).1 (Or.inl rfl)

/-- C4 counterexample: the claim says a `completeMultipartUpload` failure
propagates to the caller of `write`, but the outer catch also wraps that
call — a failure whose code is `NoSuchUpload` (or `RequestTimeout`) is
converted into a successful resolution with a re-fetched offset and the cache
kept.  Concretely: `upload_length = 100`, re-fetched offset size 100,
`_finishMultipartUpload` rejecting with code `NoSuchUpload` — `write`
resolves with 100 instead of rejecting. -/
theorem C4_counterexample :
    writeTail [("f", ⟨none, some "u"⟩)] "f" (some 100) (.ok ())
        (.ok ⟨some 100, some 100, none, some [⟨1, 100, "a"⟩]⟩)
        (.error ⟨"NoSuchUpload"⟩)
        (.ok ⟨some 100, some 100, none, none⟩) =
      ⟨.ok (some 100), [("f", ⟨none, some "u"⟩)], some (some [⟨1, 100, "a"⟩])⟩ ∧
    (writeTail [("f", ⟨none, some "u"⟩)] "f" (some 100) (.ok ())
        (.ok ⟨some 100, some 100, none, some [⟨1, 100, "a"⟩]⟩)
        (.error ⟨"NoSuchUpload"⟩)
        (.ok ⟨some 100, some 100, none, none⟩)).outcome ≠
      .error ⟨"NoSuchUpload"⟩ := by
  constructor
  · rfl
  · decide

/-- C4 (amended): after the coordinator resolves, if the re-fetched offset
size strictly equals the declared `upload_length`, `completeMultipartUpload`
is called with the re-fetched parts; on its success the cache entry for `id`
is cleared and `write` returns that size; on its failure the cache entry is
cleared and the error propagates — unless the error's code is
`RequestTimeout` or `NoSuchUpload`, in which case `write` resolves with the
size re-fetched by a further `getOffset` and the cache is kept; if the offset
size does not equal `upload_length`, `write` returns the offset size without
calling `completeMultipartUpload`. -/
theorem C4_write_completion (cache : Cache) (id : String)
    (upload_length : Option Nat) (off off2 : OffsetInfo) (e : S3Error)
    (finishR : Except S3Error Unit) (offset2R : Except S3Error OffsetInfo) :
    (parseIntStrictEq upload_length off.size = true →
      writeTail cache id upload_length (.ok ()) (.ok off) (.ok ()) offset2R =
        ⟨.ok off.size, clearCache cache id, some off.parts⟩) ∧
    (parseIntStrictEq upload_length off.size = true →
      (e.code ≠ "RequestTimeout" ∧ e.code ≠ "NoSuchUpload") →
      writeTail cache id upload_length (.ok ()) (.ok off) (.error e) offset2R =
        ⟨.error e, clearCache cache id, some off.parts⟩) ∧
    (parseIntStrictEq upload_length off.size = true →
      (e.code = "RequestTimeout" ∨ e.code = "NoSuchUpload") →
      writeTail cache id upload_length (.ok ()) (.ok off) (.error e) (.ok off2) =
        ⟨.ok off2.size, cache, some off.parts⟩) ∧
    (parseIntStrictEq upload_length off.size = false →
      writeTail cache id upload_length (.ok ()) (.ok off) finishR offset2R =
        ⟨.ok off.size, cache, none⟩) := by
  refine ⟨fun heq => ?_, fun heq ⟨h1, h2⟩ => ?_, fun heq hg => ?_, fun hne => ?_⟩
  · simp [writeTail, heq]
  · simp [writeTail, gracefulCodes, heq, h1, h2]
  · rcases hg with h | h <;> simp [writeTail, gracefulCodes, heq, h]
  · simp [writeTail, hne]

theorem C4_witness :
    writeTail [("f", ⟨none, some "u"⟩)] "f" (some 100) (.ok ())
        (.ok ⟨some 100, some 100, none, some [⟨1, 100, "a"⟩]⟩) (.ok ())
        (.ok ⟨some 100, some 100, none, none⟩) =
      ⟨.ok (some 100), clearCache [("f", ⟨none, some "u"⟩)] "f",
        some (some [⟨1, 100, "a"⟩])⟩ :=
  (C4_write_completion [("f", ⟨none, some "u"⟩)] "f" (some 100)
    ⟨some 100, some 100, none, some [⟨1, 100, "a"⟩]⟩
    ⟨some 100, some 100, none, none⟩ ⟨"x"⟩ (.ok ())
    (.ok ⟨some 100, some 100, none, none⟩)).1 (by decide)

/-- C5: `create(upload)` on success (bucket check, multipart-upload creation
and sidecar save all succeed) returns the same upload object unchanged with
the cache untouched; on a failure of any of these steps it clears the cache
entry for `upload.id` and propagates the error. -/
theorem C5_create (cache : Cache) (file : UploadFile)
    (bucketR : Except S3Error Unit) (mpuR : Except S3Error String)
    (saveR : Except S3Error Unit) (e : S3Error) (uid : String) :
    (bucketR = .ok () → mpuR = .ok uid → saveR = .ok () →
      createModel cache file bucketR mpuR saveR = (.ok file, cache)) ∧
    (bucketR = .error e →
      createModel cache file bucketR mpuR saveR =
        (.error e, clearCache cache file.id)) ∧
    (bucketR = .ok () → mpuR = .error e →
      createModel cache file bucketR mpuR saveR =
        (.error e, clearCache cache file.id)) ∧
    (bucketR = .ok () → mpuR = .ok uid → saveR = .error e →
      createModel cache file bucketR mpuR saveR =
        (.error e, clearCache cache file.id)) := by
  refine ⟨fun h1 h2 h3 => ?_, fun h1 => ?_, fun h1 h2 => ?_, fun h1 h2 h3 => ?_⟩ <;>
    subst_vars <;> rfl

theorem C5_witness :
    createModel [("g", ⟨none, none⟩)] ⟨"g", some 5, none, none⟩
        (.ok ()) (.ok "uid") (.ok ()) =
      (.ok ⟨"g", some 5, none, none⟩, [("g", ⟨none, none⟩)]) ∧
    createModel [("g", ⟨none, none⟩)] ⟨"g", some 5, none, none⟩
        (.ok ()) (.error ⟨"AccessDenied"⟩) (.ok ()) =
      (.error ⟨"AccessDenied"⟩, clearCache [("g", ⟨none, none⟩)] "g") :=
  ⟨(C5_create [("g", ⟨none, none⟩)] ⟨"g", some 5, none, none⟩
      (.ok ()) (.ok "uid") (.ok ()) ⟨"AccessDenied"⟩ "uid").1 rfl rfl rfl,
   (C5_create [("g", ⟨none, none⟩)] ⟨"g", some 5, none, none⟩
      (.ok ()) (.error ⟨"AccessDenied"⟩) (.ok ()) ⟨"AccessDenied"⟩ "uid").2.2.1 rfl rfl⟩

/-- C6: with readable metadata, `getOffset` returns a record whose `size` is
the sum of the `Size` fields of the retrieved parts (0 when there are none)
together with `upload_length`, `upload_defer_length` and the parts list; when
retrieving the parts fails with code `NoSuchUpload` it instead returns
`size = upload_length` and the declared lengths with no `parts` field; when
metadata retrieval fails it fails with `FILE_NOT_FOUND`; any other
`listParts` error propagates. -/
theorem C6_getOffset (f : UploadFile) (parts : List Part) (e bad : S3Error) :
    (∀ partsR, getOffsetModel (.error bad) partsR = .error .fileNotFound) ∧
    (getOffsetModel (.ok f) (.ok parts) =
      .ok ⟨some ((parts.map Part.Size).sum), f.upload_length,
        f.upload_defer_length, some parts⟩) ∧
    (e.code = "NoSuchUpload" →
      getOffsetModel (.ok f) (.error e) =
        .ok ⟨f.upload_length, f.upload_length, f.upload_defer_length, none⟩) ∧
    (e.code ≠ "NoSuchUpload" →
      getOffsetModel (.ok f) (.error e) = .error (.s3 e)) := by
  refine ⟨fun partsR => rfl, ?_, fun hcode => ?_, fun hcode => ?_⟩
  · simp [getOffsetModel, jsSumSizes_eq_sum]
  · simp [getOffsetModel, hcode]
  · simp [getOffsetModel, hcode]

theorem C6_witness :
    getOffsetModel (.ok ⟨"f", some 10, none, none⟩) (.ok [⟨1, 4, "a"⟩]) =
      .ok ⟨some (([⟨1, 4, "a"⟩] : List Part).map Part.Size).sum, some 10,
        none, some [⟨1, 4, "a"⟩]⟩ ∧
    getOffsetModel (.ok ⟨"f", some 10, none, none⟩) (.error ⟨"NoSuchUpload"⟩) =
      .ok ⟨some 10, some 10, none, none⟩ :=
  ⟨(C6_getOffset ⟨"f", some 10, none, none⟩ [⟨1, 4, "a"⟩]
      ⟨"NoSuchUpload"⟩ ⟨"x"⟩).2.1,
   (C6_getOffset ⟨"f", some 10, none, none⟩ [⟨1, 4, "a"⟩]
      ⟨"NoSuchUpload"⟩ ⟨"x"⟩).2.2.1 rfl⟩

/-- C7 counterexample: the claim says the fallback to key `upload-id` happens
only when `upload_id` is absent, i.e. a present `upload_id` is preferred;
but the source uses JS `||`, whose truthiness test also treats a present
empty-string `upload_id` as missing.  With `upload_id = ""` and
`upload-id = "do-id"`, `_getMetadata` returns `"do-id"`, not `""`. -/
theorem C7_counterexample :
    (getMetadataModel [] "f"
        (.ok ⟨some ⟨"f", some 10, none, none⟩, some "", some "do-id"⟩)).1 =
      .ok ⟨some ⟨"f", some 10, none, none⟩, some "do-id"⟩ ∧
    (getMetadataModel [] "f"
        (.ok ⟨some ⟨"f", some 10, none, none⟩, some "", some "do-id"⟩)).1 ≠
      .ok ⟨some ⟨"f", some 10, none, none⟩, some ""⟩ := by
  constructor
  · rfl
  · decide

/-- C7 (amended): `getMetadata` returns the cached entry when the cache holds
an entry for `id` with a populated `file` field; otherwise it reads the
sidecar head data, parses the `file` user-metadata field as JSON, and
constructs `upload_id` preferring key `upload_id` and falling back to key
`upload-id` when `upload_id` is absent or the empty string (JS `||`), storing
the constructed record in the cache before returning it; in particular when
only `upload-id` is present the returned `upload_id` is populated. -/
theorem C7_getMetadata (cache : Cache) (id : String) (s : UploadSession)
    (uf f : UploadFile) (d : HeadInfo) (headR : Except S3Error HeadInfo)
    (u : String) :
    (cacheGet cache id = some s → s.file = some uf →
      getMetadataModel cache id headR = (.ok s, cache)) ∧
    (cacheGet cache id = none → headR = .ok d → d.fileJson = some f →
      getMetadataModel cache id headR =
        (.ok ⟨some f, jsOrStr d.upload_id d.uploadHyphenId⟩,
         cacheSet cache id ⟨some f, jsOrStr d.upload_id d.uploadHyphenId⟩)) ∧
    (d.upload_id = none → d.uploadHyphenId = some u →
      jsOrStr d.upload_id d.uploadHyphenId = some u) := by
  refine ⟨fun hc hf => ?_, fun hc hh hj => ?_, fun ha hb => ?_⟩
  · simp [getMetadataModel, hc, hf]
  · subst hh
    simp [getMetadataModel, hc, getMetadataFromHead, hj]
  · simp [jsOrStr, jsTruthyStr, ha, hb]

theorem C7_witness :
    getMetadataModel [] "f" (.ok ⟨some ⟨"f", some 10, none, none⟩, none, some "do-id"⟩) =
      (.ok ⟨some ⟨"f", some 10, none, none⟩,
          jsOrStr none (some "do-id")⟩,
       cacheSet [] "f" ⟨some ⟨"f", some 10, none, none⟩,
          jsOrStr none (some "do-id")⟩) ∧
    jsOrStr none (some "do-id") = some "do-id" :=
  ⟨(C7_getMetadata [] "f" ⟨none, none⟩ ⟨"f", some 10, none, none⟩
      ⟨"f", some 10, none, none⟩ ⟨some ⟨"f", some 10, none, none⟩, none, some "do-id"⟩
      (.ok ⟨some ⟨"f", some 10, none, none⟩, none, some "do-id"⟩) "do-id").2.1
      rfl rfl rfl,
   (C7_getMetadata [] "f" ⟨none, none⟩ ⟨"f", some 10, none, none⟩
      ⟨"f", some 10, none, none⟩ ⟨some ⟨"f", some 10, none, none⟩, none, some "do-id"⟩
      (.ok ⟨some ⟨"f", some 10, none, none⟩, none, some "do-id"⟩) "do-id").2.2
      rfl rfl⟩

/-- C8: `declareUploadLength(id, length)` reads the upload's metadata, fails
with `FILE_NOT_FOUND` when the metadata's `file` record is absent, and
otherwise sets `file.upload_length` to the given length, clears
`file.upload_defer_length`, and persists the updated file via
`_saveMetadata` under the same `upload_id`. -/
theorem C8_declareUploadLength (s : UploadSession) (f : UploadFile) (len : Nat) :
    (s.file = none →
      declareUploadLengthModel (.ok s) len = .error .fileNotFound) ∧
    (s.file = some f →
      declareUploadLengthModel (.ok s) len =
        .ok ({ f with upload_length := some len, upload_defer_length := none },
          s.upload_id)) := by
  refine ⟨fun h => ?_, fun h => ?_⟩ <;> simp [declareUploadLengthModel, h]

theorem C8_witness :
    declareUploadLengthModel (.ok ⟨none, some "u"⟩) 42 = .error .fileNotFound ∧
    declareUploadLengthModel (.ok ⟨some ⟨"f", none, some 1, none⟩, some "u"⟩) 42 =
      .ok (⟨"f", some 42, none, none⟩, some "u") :=
  ⟨(C8_declareUploadLength ⟨none, some "u"⟩ ⟨"f", none, some 1, none⟩ 42).1 rfl,
   (C8_declareUploadLength ⟨some ⟨"f", none, some 1, none⟩, some "u"⟩
      ⟨"f", none, some 1, none⟩ 42).2 rfl⟩

end S3Store
